import Mathlib

/-!
Verification development for the `news_aggregator` batch ETL pipeline.

The Python source (`news_aggregator.py`) is shallowly embedded below:
pure helper functions (`sha1`, `clean_text`, `guess_category`, `make_tags`,
`parse_time`, `load_sources`) become Lean functions; the orchestration in
`main` (per-source fetch, per-source truncation, global sort, dedup by id,
global truncation, stderr diagnostics, exit status) becomes explicit
state-passing over lists, with external effects (the feed parser, the
date-string parser, the wall clock) supplied as parameters.
-/

namespace News

/-! ## String utilities

Python string comparison (used by `sorted(..., key=...)` on ISO timestamp
strings and by `sorted(tags)`) is lexicographic by code point; Python `in`
is substring containment.  Both are modelled on `List Char`.
-/

/-- Lexicographic comparison of char lists by code point, mirroring Python
string `<=`: the empty list is least, and a proper prefix precedes its
extensions. -/
def charsLe : List Char → List Char → Bool
  | [], _ => true
  | _ :: _, [] => false
  | a :: as, b :: bs =>
    if a.toNat < b.toNat then true
    else if b.toNat < a.toNat then false
    else charsLe as bs

/-- Python string comparison `a <= b` lifted to `String`. -/
def pyStrLe (a b : String) : Bool := charsLe a.data b.data

/-- Does `needle` occur at the start of `hay`? -/
def startsWithChars : List Char → List Char → Bool
  | [], _ => true
  | _ :: _, [] => false
  | a :: as, b :: bs => a == b && startsWithChars as bs

/-- Does `needle` occur contiguously anywhere inside `hay`?  Models the
Python expression `needle in hay`. -/
def containsSub (needle : List Char) : List Char → Bool
  | [] => needle.isEmpty
  | b :: bs => startsWithChars needle (b :: bs) || containsSub needle bs

/-- Python `w in text` on strings. -/
def strContains (w text : String) : Bool := containsSub w.data text.data

theorem charsLe_refl (l : List Char) : charsLe l l = true := by
  induction l with
  | nil => rfl
  | cons a as ih => simp [charsLe, ih]

theorem charsLe_trans :
    ∀ (l1 l2 l3 : List Char), charsLe l1 l2 = true → charsLe l2 l3 = true →
      charsLe l1 l3 = true := by
  intro l1
  induction l1 with
  | nil => intro l2 l3 _ _; rfl
  | cons a as ih =>
    intro l2 l3 h12 h23
    cases l2 with
    | nil => simp [charsLe] at h12
    | cons b bs =>
      cases l3 with
      | nil => simp [charsLe] at h23
      | cons c cs =>
        simp only [charsLe] at h12 h23 ⊢
        split_ifs at h12 h23 ⊢ <;> try rfl
        all_goals first
          | omega
          | exact ih bs cs h12 h23
          | simp_all

theorem charsLe_total (l1 l2 : List Char) :
    (charsLe l1 l2 || charsLe l2 l1) = true := by
  induction l1 generalizing l2 with
  | nil => rfl
  | cons a as ih =>
    cases l2 with
    | nil => rfl
    | cons b bs =>
      simp only [charsLe]
      split_ifs <;> simp_all <;> omega

/-! ## `sha1` (lines 52-55)

The Python code joins its string arguments with `"|"`, UTF-8 encodes the
result and takes the SHA-1 hex digest.  SHA-1 is embedded over `Nat` with
explicit wrapping modulo `2 ^ 32`. -/

/-- Truncation to a 32-bit word. -/
def w32 (n : Nat) : Nat := n % 4294967296

/-- Left rotation of a 32-bit word by `b` bits. -/
def rotl (b n : Nat) : Nat := w32 ((n <<< b) + (n >>> (32 - b)))

/-- Round function of SHA-1 (choice, parity, majority, parity). -/
def shaF (i b c d : Nat) : Nat :=
  if i < 20 then (b &&& c) ||| ((b ^^^ 4294967295) &&& d)
  else if i < 40 then b ^^^ c ^^^ d
  else if i < 60 then (b &&& c) ||| (b &&& d) ||| (c &&& d)
  else b ^^^ c ^^^ d

/-- Round constant of SHA-1. -/
def shaK (i : Nat) : Nat :=
  if i < 20 then 0x5A827999
  else if i < 40 then 0x6ED9EBA1
  else if i < 60 then 0x8F1BBCDC
  else 0xCA62C1D6

/-- The five-word SHA-1 chaining state. -/
structure Hs where
  h0 : Nat
  h1 : Nat
  h2 : Nat
  h3 : Nat
  h4 : Nat

/-- SHA-1 initialization vector. -/
def initH : Hs := ⟨0x67452301, 0xEFCDAB89, 0x98BADCFE, 0x10325476, 0xC3D2E1F0⟩

/-- The five working registers of the SHA-1 compression loop. -/
structure Regs where
  a : Nat
  b : Nat
  c : Nat
  d : Nat
  e : Nat

/-- One round of the SHA-1 compression loop; `iw` is the pair of round
index and schedule word. -/
def shaRound (s : Regs) (iw : Nat × Nat) : Regs :=
  ⟨w32 (rotl 5 s.a + shaF iw.1 s.b s.c s.d + s.e + shaK iw.1 + iw.2),
   s.a, rotl 30 s.b, s.c, s.d⟩

/-- Big-endian assembly of bytes into 32-bit words. -/
def bytesToWords : List Nat → List Nat
  | b0 :: b1 :: b2 :: b3 :: rest =>
    (((b0 * 256 + b1) * 256 + b2) * 256 + b3) :: bytesToWords rest
  | _ => []

/-- Message-schedule extension; `rev` holds the schedule so far in reverse
order, and `n` more words are produced. -/
def extendWords : Nat → List Nat → List Nat
  | 0, rev => rev
  | n + 1, rev =>
    extendWords n
      (rotl 1 (rev.getD 2 0 ^^^ rev.getD 7 0 ^^^ rev.getD 13 0 ^^^ rev.getD 15 0) :: rev)

/-- SHA-1 compression of one 64-byte chunk. -/
def processChunk (h : Hs) (chunk : List Nat) : Hs :=
  let ws := (extendWords 64 (bytesToWords chunk).reverse).reverse
  let r := ws.enum.foldl shaRound ⟨h.h0, h.h1, h.h2, h.h3, h.h4⟩
  ⟨w32 (h.h0 + r.a), w32 (h.h1 + r.b), w32 (h.h2 + r.c),
   w32 (h.h3 + r.d), w32 (h.h4 + r.e)⟩

/-- The eight big-endian length bytes closing a padded SHA-1 message. -/
def lenBytes (ml : Nat) : List Nat :=
  [56, 48, 40, 32, 24, 16, 8, 0].map (fun sh => (ml >>> sh) % 256)

/-- SHA-1 padding: a `0x80` byte, zeros to 56 mod 64, then the bit length. -/
def padMessage (msg : List Nat) : List Nat :=
  msg ++ 128 :: (List.replicate ((119 - msg.length % 64) % 64) 0 ++ lenBytes (msg.length * 8))

/-- Split a byte list into 64-byte chunks; the fuel argument bounds the
recursion and is instantiated with the list length. -/
def chunks64 : Nat → List Nat → List (List Nat)
  | 0, _ => []
  | _ + 1, [] => []
  | fuel + 1, l => l.take 64 :: chunks64 fuel (l.drop 64)

/-- Big-endian byte decomposition of a 32-bit word. -/
def wordBytes (w : Nat) : List Nat :=
  [(w >>> 24) % 256, (w >>> 16) % 256, (w >>> 8) % 256, w % 256]

/-- The final SHA-1 chaining state of a message. -/
def sha1Core (m : List Nat) : Hs :=
  (chunks64 (padMessage m).length (padMessage m)).foldl processChunk initH

/-- The 20-byte SHA-1 digest of a byte list. -/
def sha1Digest (m : List Nat) : List Nat :=
  wordBytes (sha1Core m).h0 ++ wordBytes (sha1Core m).h1 ++ wordBytes (sha1Core m).h2 ++
    wordBytes (sha1Core m).h3 ++ wordBytes (sha1Core m).h4

/-- The sixteen lowercase hex digits, as produced by Python `hexdigest`. -/
def hexDigits : List Char := "0123456789abcdef".data

/-- The hex digit of a nibble. -/
def hexChar (n : Nat) : Char := hexDigits.getD n '0'

/-- The two hex digits of a byte. -/
def hexPair (b : Nat) : List Char := [hexChar (b / 16), hexChar (b % 16)]

/-- UTF-8 encoding of a string as a byte list, mirroring `.encode("utf-8")`. -/
def utf8Bytes (s : String) : List Nat := s.toUTF8.data.toList.map (fun b => b.toNat)

/-- Python `"|".join(parts)`. -/
def joinBar : List String → String
  | [] => ""
  | [s] => s
  | s :: rest => s ++ "|" ++ joinBar rest

/-- Embedding of `sha1` (line 52): hex digest of the SHA-1 hash of the
`"|"`-joined, UTF-8 encoded arguments. -/
def sha1 (parts : List String) : String :=
  (((sha1Digest (utf8Bytes (joinBar parts))).map hexPair).flatten).asString

/-- The item fingerprint from line 110: `sha1(title, link)[:16]`. -/
def itemId (title link : String) : String :=
  ((sha1 [title, link]).data.take 16).asString

theorem length_asString (l : List Char) : (List.asString l).length = l.length := rfl

theorem data_asString (l : List Char) : (List.asString l).data = l := rfl

theorem joinBar_pair (t u : String) : joinBar [t, u] = t ++ "|" ++ u := rfl

theorem sha1Digest_length (m : List Nat) : (sha1Digest m).length = 20 := by
  simp [sha1Digest, wordBytes]

theorem sha1Digest_lt (m : List Nat) : ∀ b ∈ sha1Digest m, b < 256 := by
  intro b hb
  simp only [sha1Digest, wordBytes, List.mem_append, List.mem_cons,
    List.not_mem_nil, or_false] at hb
  rcases hb with ((h | h | h | h) | (h | h | h | h)) | (h | h | h | h) |
    (h | h | h | h) | (h | h | h | h) <;> omega

theorem hexChars_length (bs : List Nat) : ((bs.map hexPair).flatten).length = 2 * bs.length := by
  induction bs with
  | nil => rfl
  | cons b bs ih =>
    simp only [List.map_cons, List.flatten_cons, List.length_append, ih,
      List.length_cons, hexPair]
    simp
    omega

theorem sha1_length (parts : List String) : (sha1 parts).length = 40 := by
  unfold sha1
  rw [length_asString, hexChars_length, sha1Digest_length]

theorem itemId_length (title link : String) : (itemId title link).length = 16 := by
  have h : (sha1 [title, link]).data.length = 40 := sha1_length [title, link]
  unfold itemId
  rw [length_asString, List.length_take, h]
  omega

theorem hexChar_mem : ∀ n, n < 16 → hexChar n ∈ hexDigits := by decide

theorem itemId_hex (title link : String) :
    ∀ c ∈ (itemId title link).data, c ∈ hexDigits := by
  intro c hc
  rw [itemId, data_asString] at hc
  have hc2 : c ∈ (sha1 [title, link]).data := (List.take_sublist 16 _).subset hc
  rw [sha1, data_asString] at hc2
  rw [List.mem_flatten] at hc2
  obtain ⟨l, hl, hcl⟩ := hc2
  rw [List.mem_map] at hl
  obtain ⟨b, hb, rfl⟩ := hl
  have hblt : b < 256 := sha1Digest_lt _ b hb
  simp only [hexPair, List.mem_cons, List.not_mem_nil, or_false] at hcl
  rcases hcl with rfl | rfl
  · exact hexChar_mem _ (by omega)
  · exact hexChar_mem _ (by omega)

/-! ## `clean_text` (lines 44-50)

Python removes markup-tag-like substrings with `re.sub(r"<.*?>", "")`
(non-greedy, `.` does not match a newline), then collapses whitespace runs
to single spaces and trims the ends. -/

/-- Whitespace characters matched by Python `\s` for ASCII text. -/
def pyIsSpace (c : Char) : Bool :=
  c = ' ' || c = '\t' || c = '\n' || c = '\x0d' || c = '\x0b' || c = '\x0c'

/-- Scan for the closing `>` of a markup tag: returns the remainder after
the first `>`, failing on a newline or the end of input (the regex dot
does not cross newlines). -/
def findClose : List Char → Option (List Char)
  | [] => none
  | c :: rest =>
    if c = '>' then some rest
    else if c = '\n' then none
    else findClose rest

theorem findClose_length :
    ∀ (l r : List Char), findClose l = some r → r.length < l.length := by
  intro l
  induction l with
  | nil => intro r h; simp [findClose] at h
  | cons c rest ih =>
    intro r h
    simp only [findClose] at h
    split_ifs at h
    · cases h; simp
    · exact Nat.lt_trans (ih r h) (by simp)

/-- Removal of `<...>` tag spans, mirroring `re.sub(r"<.*?>", "", text)`:
at each `<` the shortest newline-free span ending in `>` is dropped; a `<`
with no closing `>` on its line is kept. -/
def stripTags : List Char → List Char
  | [] => []
  | c :: rest =>
    if c = '<' then
      match h : findClose rest with
      | some r => stripTags r
      | none => c :: stripTags rest
    else c :: stripTags rest
termination_by l => l.length
decreasing_by
  · exact Nat.lt_trans (findClose_length _ _ h) (by simp)
  · simp
  · simp

/-- Embedding of `clean_text`: falsy input yields `""`; otherwise tags are
stripped and whitespace runs are collapsed to single spaces with the ends
trimmed (splitting on whitespace, dropping empty fragments and rejoining
with single spaces produces exactly the Python result). -/
def clean_text (s : String) : String :=
  if s = "" then ""
  else
    String.intercalate " "
      (((List.asString (stripTags s.data)).split pyIsSpace).filter (fun t => !(t = "")))

/-! ## Keyword labelling (lines 57-86) -/

/-- Politics keywords (line 58). -/
def POLITICS_KW : List String :=
  ["정치", "대통령", "국회", "총선", "장관", "여당", "야당", "청와대", "외교", "안보", "북한"]

/-- Economy keywords (line 59). -/
def ECONOMY_KW : List String :=
  ["경제", "증시", "코스피", "환율", "금리", "물가", "수출", "무역", "부동산", "채권", "원달러"]

/-- Society keywords (line 60). -/
def SOCIETY_KW : List String :=
  ["사회", "사건", "사고", "치안", "노동", "교육", "복지", "보건", "의료", "법원", "검찰"]

/-- Culture keywords (line 61). -/
def CULTURE_KW : List String :=
  ["문화", "영화", "음악", "공연", "전시", "문학", "예술", "드라마", "방송", "연예"]

/-- IT/science keywords (line 62). -/
def ITSCI_KW : List String :=
  ["IT", "과학", "AI", "인공지능", "반도체", "스타트업", "클라우드", "보안", "게임", "통신", "소프트웨어"]

/-- Sports keywords (line 63). -/
def SPORTS_KW : List String :=
  ["스포츠", "축구", "야구", "농구", "배구", "골프", "올림픽", "대표팀", "K리그", "KBO", "NBA"]

/-- The inner `hit` test of `guess_category`: some keyword occurs in the
text. -/
def hit (text : String) (words : List String) : Bool :=
  words.any (fun w => strContains w text)

/-- The keyword cascade of `guess_category` (lines 68-76), applied when no
truthy source override is present. -/
def categoryByKeywords (title summary : String) : String :=
  let text := title ++ " " ++ summary
  if hit text POLITICS_KW then "politics"
  else if hit text ECONOMY_KW then "economy"
  else if hit text SOCIETY_KW then "society"
  else if hit text CULTURE_KW then "culture"
  else if hit text ITSCI_KW then "it_science"
  else if hit text SPORTS_KW then "sports"
  else "general"

/-- Embedding of `guess_category` (lines 65-76).  The Python guard
`if src_category:` is truthiness: an absent override and an empty-string
override both fall through to the keyword cascade. -/
def guess_category (title summary : String) (src_category : Option String) : String :=
  match src_category with
  | some c => if c = "" then categoryByKeywords title summary else c
  | none => categoryByKeywords title summary

/-- Embedding of `make_tags` (lines 78-86): conditional tags collected into
a set and returned sorted (Python `sorted(set)`), with `short_title` tied
to a title length of at most 25 code points. -/
def make_tags (title summary : String) : List String :=
  let t := title ++ " " ++ summary
  let tags :=
    (if ["속보", "단독", "긴급"].any (fun w => strContains w t) then ["breaking"] else []) ++
    (if ["해설", "분석", "심층"].any (fun w => strContains w t) then ["analysis"] else []) ++
    (if ["사설", "칼럼", "오피니언"].any (fun w => strContains w t) then ["opinion"] else []) ++
    (if title.length ≤ 25 then ["short_title"] else [])
  tags.dedup.mergeSort pyStrLe

/-! ## `parse_time` (lines 27-42)

The raw feed entry is a mapping of optional fields.  The external
capabilities are parameters: `p` models `dateutil.parser.parse` composed
with `astimezone(KST)` (returning `none` on any parse exception), `q`
models `datetime(*tuple, tzinfo=utc).astimezone(KST)` on the first six
tuple components, and `now` models `now_kst()`.  Timestamps stay abstract
in a type `τ`. -/

/-- A raw feed entry: the fields read by `parse_time` and `fetch_rss`.
Absent keys are `none`. -/
structure Entry where
  published : Option String := none
  updated : Option String := none
  pubDate : Option String := none
  published_parsed : Option (List Nat) := none
  updated_parsed : Option (List Nat) := none
  title : Option String := none
  link : Option String := none
  summary : Option String := none
  description : Option String := none

/-- One iteration of the first `parse_time` loop: skip a falsy value
(absent key or empty string), otherwise attempt the lenient parse. -/
def tryStr {τ : Type} (p : String → Option τ) : Option String → Option τ
  | none => none
  | some s => if s = "" then none else p s

/-- One iteration of the second `parse_time` loop: skip a falsy value
(absent key or empty tuple), otherwise build a UTC datetime from the first
six components. -/
def tryTup {τ : Type} (q : List Nat → Option τ) : Option (List Nat) → Option τ
  | none => none
  | some l => if l = [] then none else q (l.take 6)

/-- Embedding of `parse_time`: try `published`, `updated`, `pubDate` with
the lenient string parser, then `published_parsed`, `updated_parsed` as
UTC tuples, and fall back to the current KST wall-clock time. -/
def parse_time {τ : Type} (p : String → Option τ) (q : List Nat → Option τ)
    (now : τ) (e : Entry) : τ :=
  match tryStr p e.published with
  | some t => t
  | none =>
    match tryStr p e.updated with
    | some t => t
    | none =>
      match tryStr p e.pubDate with
      | some t => t
      | none =>
        match tryTup q e.published_parsed with
        | some t => t
        | none =>
          match tryTup q e.updated_parsed with
          | some t => t
          | none => now

/-! ## Source loader (lines 89-99)

The parsed YAML document is modelled as data: `none` stands for an
empty/absent document (`yaml.safe_load` returning `None`, recovered by
`or {}`), and each raw source entry carries the three optional keys read
with `.get`. -/

/-- One entry of the `sources` list in the configuration document. -/
structure RawSource where
  name : Option String := none
  url : Option String := none
  category : Option String := none

/-- The parsed configuration document: an optional `sources` key. -/
structure YamlDoc where
  sources : Option (List RawSource) := none

/-- A loaded source record, as built by `load_sources`. -/
structure Source where
  name : Option String
  url : Option String
  category : Option String

/-- Embedding of `load_sources`: an absent document behaves as `{}`, an
absent `sources` key as `[]`, and each entry keeps its three optional
fields. -/
def load_sources (doc : Option YamlDoc) : List Source :=
  ((doc.getD {}).sources.getD []).map (fun s => ⟨s.name, s.url, s.category⟩)

/-! ## Items and `fetch_rss` (lines 101-124)

`feedparser.parse` is external: the entry list of a feed is an input
here.  The datetime capabilities of `parse_time` stay parameters, with
`iso` modelling `.isoformat()`. -/

/-- A normalized item record, with the fields assigned in `fetch_rss`
(lines 109-122).  The dict values `src["name"]` and `src["url"]` may be
`None`, hence the `Option`. -/
structure Item where
  id : String
  source_name : Option String
  source_url : Option String
  url : String
  title : String
  summary : String
  published_at : String
  fetched_at : String
  language : String
  category : String
  tags : List String

/-- Python `a or b` for an optional string `a`: `b` when `a` is absent or
empty. -/
def orStr (a : Option String) (b : String) : String :=
  match a with
  | some s => if s = "" then b else s
  | none => b

/-- The per-entry body of the `fetch_rss` loop (lines 104-123): trim title
and link, normalize the summary from `summary` or `description`, resolve
the timestamp, fingerprint, and label. -/
def fetchItem {τ : Type} (iso : τ → String) (p : String → Option τ)
    (q : List Nat → Option τ) (now : τ) (src : Source) (fetched_at : String)
    (e : Entry) : Item :=
  let title := (e.title.getD "").trim
  let link := (e.link.getD "").trim
  let summary := clean_text (orStr e.summary (orStr e.description ""))
  { id := itemId title link
    source_name := src.name
    source_url := src.url
    url := link
    title := title
    summary := summary
    published_at := iso (parse_time p q now e)
    fetched_at := fetched_at
    language := "ko"
    category := guess_category title summary src.category
    tags := make_tags title summary }

/-- Embedding of `fetch_rss` applied to a parsed feed: one item per entry,
in feed order. -/
def fetch_rss {τ : Type} (iso : τ → String) (p : String → Option τ)
    (q : List Nat → Option τ) (now : τ) (src : Source) (fetched_at : String)
    (entries : List Entry) : List Item :=
  entries.map (fetchItem iso p q now src fetched_at)

/-! ## Aggregation pipeline (lines 184-210)

`main` is embedded with its effects made explicit: the per-source fetch
outcome is an `Except` (an exception inside the `try` block), stderr is a
list of emitted lines, and `sys.exit(1)` is an `Except.error` carrying the
exit status and the diagnostic. -/

/-- Descending comparison on the ISO `published_at` strings, as used by
`sort(key=lambda x: x["published_at"], reverse=True)`. -/
def leDesc (a b : Item) : Bool := pyStrLe b.published_at a.published_at

/-- Stable descending sort by `published_at` (lines 201 and 208). -/
def sortDesc (items : List Item) : List Item := items.mergeSort leDesc

/-- Python string interpolation of the optional source name (an absent
name formats as `None`). -/
def pyNameStr : Option String → String
  | some s => s
  | none => "None"

/-- The stderr line of line 204, `f"[WARN] {src['name']} fetch failed: {e}"`. -/
def warnLine (src : Source) (e : String) : String :=
  "[WARN] " ++ pyNameStr src.name ++ " fetch failed: " ++ e

/-- One iteration of the fetch loop (lines 197-204): a successful source
contributes its `per_source_limit` most recent items; a failing one only
appends a warning line to stderr. -/
def fetchStep (per : Nat) (acc : List Item × List String)
    (r : Source × Except String (List Item)) : List Item × List String :=
  match r.2 with
  | .ok items => (acc.1 ++ (sortDesc items).take per, acc.2)
  | .error e => (acc.1, acc.2 ++ [warnLine r.1 e])

/-- The whole fetch loop: accumulated `all_items` and stderr lines. -/
def collectAll (per : Nat) (rs : List (Source × Except String (List Item))) :
    List Item × List String :=
  rs.foldl (fetchStep per) ([], [])

/-- The dict-based dedup of lines 207-209: keep an item only when its id
was not seen before (`uniq.setdefault`), preserving order of first
occurrence. -/
def dedupGo (seen : List String) : List Item → List Item
  | [] => []
  | x :: xs => if x.id ∈ seen then dedupGo seen xs else x :: dedupGo (x.id :: seen) xs

/-- Deduplication by id keeping the first occurrence. -/
def dedupById (l : List Item) : List Item := dedupGo [] l

/-- The global stage of lines 206-210: sort everything by recency,
deduplicate by id, truncate to `total_limit`. -/
def finalize (all_items : List Item) (total : Nat) : List Item :=
  (dedupById (sortDesc all_items)).take total

/-- The item list `main` hands to the writer, given the per-source fetch
outcomes. -/
def mainItems (rs : List (Source × Except String (List Item))) (per total : Nat) :
    List Item :=
  finalize (collectAll per rs).1 total

/-- The stderr warning lines emitted by the fetch loop. -/
def mainWarnings (rs : List (Source × Except String (List Item))) (per : Nat) :
    List String :=
  (collectAll per rs).2

/-- Embedding of `main` up to the write step (lines 185-210): load the
sources, exit with status 1 and a stderr diagnostic when there are none,
otherwise fetch every source and aggregate.  The result is the final item
list together with the warning lines. -/
def mainRun (doc : Option YamlDoc) (fetch : Source → Except String (List Item))
    (per total : Nat) : Except (Nat × String) (List Item × List String) :=
  let sources := load_sources doc
  if sources.isEmpty then
    .error (1, "No sources in sources.yaml")
  else
    let rs := sources.map (fun s => (s, fetch s))
    .ok (mainItems rs per total, mainWarnings rs per)

/-! ## Lemmas about the pipeline building blocks -/

theorem leDesc_trans (a b c : Item) :
    leDesc a b = true → leDesc b c = true → leDesc a c = true :=
  fun h1 h2 => charsLe_trans _ _ _ h2 h1

theorem leDesc_total (a b : Item) : (leDesc a b || leDesc b a) = true := by
  have := charsLe_total b.published_at.data a.published_at.data
  simp only [leDesc, pyStrLe]
  rcases Bool.or_eq_true_iff.mp this with h | h <;> simp [h]

theorem sortDesc_perm (l : List Item) : (sortDesc l).Perm l :=
  List.mergeSort_perm l leDesc

theorem sortDesc_sorted (l : List Item) :
    (sortDesc l).Pairwise (fun a b => leDesc a b = true) :=
  List.sorted_mergeSort leDesc_trans leDesc_total l

theorem sortDesc_length (l : List Item) : (sortDesc l).length = l.length :=
  List.length_mergeSort l

theorem dedupGo_sublist : ∀ (l : List Item) (seen : List String), (dedupGo seen l).Sublist l := by
  intro l
  induction l with
  | nil => intro seen; simp [dedupGo]
  | cons x xs ih =>
    intro seen
    simp only [dedupGo]
    split_ifs
    · exact (ih seen).trans (List.sublist_cons_self x xs)
    · exact (ih (x.id :: seen)).cons₂ x

theorem dedupGo_not_seen :
    ∀ (l : List Item) (seen : List String) (y : Item),
      y ∈ dedupGo seen l → y.id ∉ seen := by
  intro l
  induction l with
  | nil => intro seen y h; simp [dedupGo] at h
  | cons x xs ih =>
    intro seen y h
    simp only [dedupGo] at h
    split_ifs at h with hx
    · exact ih seen y h
    · rcases List.mem_cons.mp h with rfl | h2
      · exact hx
      · intro hy; exact ih _ y h2 (List.mem_cons_of_mem _ hy)

theorem dedupGo_pairwise :
    ∀ (l : List Item) (seen : List String),
      (dedupGo seen l).Pairwise (fun a b => a.id ≠ b.id) := by
  intro l
  induction l with
  | nil => intro seen; simp [dedupGo]
  | cons x xs ih =>
    intro seen
    simp only [dedupGo]
    split_ifs with hx
    · exact ih seen
    · refine List.Pairwise.cons ?_ (ih _)
      intro y hy he
      exact dedupGo_not_seen xs (x.id :: seen) y hy (he ▸ List.mem_cons_self x.id seen)

theorem dedupGo_all_seen :
    ∀ (l : List Item) (seen : List String),
      (∀ x ∈ l, x.id ∈ seen) → dedupGo seen l = [] := by
  intro l
  induction l with
  | nil => intro seen _; rfl
  | cons x xs ih =>
    intro seen h
    simp only [dedupGo]
    rw [if_pos (h x (List.mem_cons_self x xs))]
    exact ih seen (fun y hy => h y (List.mem_cons_of_mem _ hy))

theorem dedupById_all_same (k : String) :
    ∀ (l : List Item), (∀ x ∈ l, x.id = k) → l ≠ [] →
      ∃ z, z ∈ l ∧ z.id = k ∧ dedupById l = [z] := by
  intro l hall hne
  cases l with
  | nil => exact absurd rfl hne
  | cons z zs =>
    refine ⟨z, List.mem_cons_self z zs, hall z (List.mem_cons_self z zs), ?_⟩
    have hz : ∀ y ∈ zs, y.id ∈ [z.id] := by
      intro y hy
      rw [hall y (List.mem_cons_of_mem _ hy), ← hall z (List.mem_cons_self z zs)]
      exact List.mem_cons_self z.id []
    simp only [dedupById, dedupGo, List.not_mem_nil, if_false]
    rw [dedupGo_all_seen zs [z.id] hz]

theorem dedupGo_dominates :
    ∀ (l : List Item) (seen : List String),
      l.Pairwise (fun a b => leDesc a b = true) →
      ∀ y ∈ dedupGo seen l, ∀ x ∈ l, x.id = y.id →
        pyStrLe x.published_at y.published_at = true := by
  intro l
  induction l with
  | nil => intro seen _ y hy; simp [dedupGo] at hy
  | cons z zs ih =>
    intro seen hsort y hy x hx hid
    have hz := List.pairwise_cons.mp hsort
    simp only [dedupGo] at hy
    split_ifs at hy with hseen
    · rcases List.mem_cons.mp hx with rfl | hx2
      · exact absurd (hid ▸ hseen) (dedupGo_not_seen zs seen y hy)
      · exact ih seen hz.2 y hy x hx2 hid
    · rcases List.mem_cons.mp hy with rfl | hy2
      · rcases List.mem_cons.mp hx with rfl | hx2
        · exact charsLe_refl _
        · exact hz.1 x hx2
      · rcases List.mem_cons.mp hx with rfl | hx2
        · exact absurd (List.mem_cons.mpr (Or.inl hid.symm))
            (dedupGo_not_seen zs (x.id :: seen) y hy2)
        · exact ih (z.id :: seen) hz.2 y hy2 x hx2 hid

/-- The item contribution of one source in the fetch loop. -/
def sourceContrib (per : Nat) (r : Source × Except String (List Item)) : List Item :=
  match r.2 with
  | .ok items => (sortDesc items).take per
  | .error _ => []

/-- The stderr contribution of one source in the fetch loop. -/
def sourceWarn (r : Source × Except String (List Item)) : List String :=
  match r.2 with
  | .ok _ => []
  | .error e => [warnLine r.1 e]

theorem collectAll_foldl (per : Nat) :
    ∀ (rs : List (Source × Except String (List Item))) (acc : List Item × List String),
      rs.foldl (fetchStep per) acc =
        (acc.1 ++ rs.flatMap (sourceContrib per), acc.2 ++ rs.flatMap sourceWarn) := by
  intro rs
  induction rs with
  | nil => intro acc; simp
  | cons r rs ih =>
    intro acc
    simp only [List.foldl_cons, List.flatMap_cons]
    rw [ih]
    cases h : r.2 with
    | ok items =>
      simp [fetchStep, sourceContrib, sourceWarn, h, List.append_assoc]
    | error e =>
      simp [fetchStep, sourceContrib, sourceWarn, h, List.append_assoc]

theorem collectAll_fst (per : Nat) (rs : List (Source × Except String (List Item))) :
    (collectAll per rs).1 = rs.flatMap (sourceContrib per) := by
  rw [collectAll, collectAll_foldl]
  simp

theorem collectAll_snd (per : Nat) (rs : List (Source × Except String (List Item))) :
    (collectAll per rs).2 = rs.flatMap sourceWarn := by
  rw [collectAll, collectAll_foldl]
  simp

theorem take_one_le {α : Type} (n : Nat) (x : α) (h : 1 ≤ n) :
    List.take n [x] = [x] := by
  cases n with
  | zero => omega
  | succ m => simp

theorem finalize_mem_all {all : List Item} {total : Nat} {y : Item}
    (hy : y ∈ finalize all total) : y ∈ dedupById (sortDesc all) :=
  (List.take_sublist total _).subset hy

theorem pyStrLe_trans (a b c : String) :
    pyStrLe a b = true → pyStrLe b c = true → pyStrLe a c = true :=
  charsLe_trans _ _ _

theorem pyStrLe_total (a b : String) : (pyStrLe a b || pyStrLe b a) = true :=
  charsLe_total _ _

/-! ## Claim theorems -/

/-- C9: the item id produced by the fetcher is a deterministic function of
the pair of trimmed title and url — two entries with identical trimmed
title and link receive the same id whatever every other field, parser or
source is — and that id is 16 characters long, all of them lowercase hex
digits. -/
theorem fetch_id_deterministic {τ₁ τ₂ : Type} (iso₁ : τ₁ → String)
    (p₁ : String → Option τ₁) (q₁ : List Nat → Option τ₁) (now₁ : τ₁)
    (s₁ : Source) (f₁ : String) (e₁ : Entry) (iso₂ : τ₂ → String)
    (p₂ : String → Option τ₂) (q₂ : List Nat → Option τ₂) (now₂ : τ₂)
    (s₂ : Source) (f₂ : String) (e₂ : Entry)
    (hT : (e₁.title.getD "").trim = (e₂.title.getD "").trim)
    (hL : (e₁.link.getD "").trim = (e₂.link.getD "").trim) :
    (fetchItem iso₁ p₁ q₁ now₁ s₁ f₁ e₁).id = (fetchItem iso₂ p₂ q₂ now₂ s₂ f₂ e₂).id ∧
    (fetchItem iso₁ p₁ q₁ now₁ s₁ f₁ e₁).id.length = 16 ∧
    ∀ c ∈ (fetchItem iso₁ p₁ q₁ now₁ s₁ f₁ e₁).id.data, c ∈ hexDigits := by
  have h₁ : (fetchItem iso₁ p₁ q₁ now₁ s₁ f₁ e₁).id
      = itemId ((e₁.title.getD "").trim) ((e₁.link.getD "").trim) := rfl
  have h₂ : (fetchItem iso₂ p₂ q₂ now₂ s₂ f₂ e₂).id
      = itemId ((e₂.title.getD "").trim) ((e₂.link.getD "").trim) := rfl
  refine ⟨?_, ?_, ?_⟩
  · rw [h₁, h₂, hT, hL]
  · rw [h₁]; exact itemId_length _ _
  · rw [h₁]; exact itemId_hex _ _

/-- C9 witness: two entries agreeing on title and link but differing in
summary, description and source data share their id, which is a
16-character hex string. -/
theorem fetch_id_deterministic_witness :
    (fetchItem (fun _ : Nat => "") (fun _ => none) (fun _ => none) 0
        ⟨some "s1", none, none⟩ "f1" { title := some "a", link := some "b", summary := some "x" }).id =
      (fetchItem (fun _ : Nat => "") (fun _ => none) (fun _ => none) 0
        ⟨some "s2", none, some "politics"⟩ "f2" { title := some "a", link := some "b", description := some "y" }).id ∧
    (fetchItem (fun _ : Nat => "") (fun _ => none) (fun _ => none) 0
        ⟨some "s1", none, none⟩ "f1" { title := some "a", link := some "b", summary := some "x" }).id.length = 16 ∧
    ∀ c ∈ (fetchItem (fun _ : Nat => "") (fun _ => none) (fun _ => none) 0
        ⟨some "s1", none, none⟩ "f1" { title := some "a", link := some "b", summary := some "x" }).id.data, c ∈ hexDigits :=
  fetch_id_deterministic (fun _ : Nat => "") (fun _ => none) (fun _ => none) 0
    ⟨some "s1", none, none⟩ "f1" { title := some "a", link := some "b", summary := some "x" }
    (fun _ : Nat => "") (fun _ => none) (fun _ => none) 0
    ⟨some "s2", none, some "politics"⟩ "f2" { title := some "a", link := some "b", description := some "y" }
    rfl rfl

/-- C10: the id depends only on the string obtained by joining title and
url with the separator bar: whenever the joined strings coincide, the ids
coincide, and any two items carrying the two colliding ids are merged into
one by the dedup stage. -/
theorem itemId_join_collision (t₁ u₁ t₂ u₂ : String)
    (h : t₁ ++ "|" ++ u₁ = t₂ ++ "|" ++ u₂) :
    itemId t₁ u₁ = itemId t₂ u₂ ∧
    ∀ (a b : Item), a.id = itemId t₁ u₁ → b.id = itemId t₂ u₂ →
      (dedupById [a, b]).length = 1 := by
  have hid : itemId t₁ u₁ = itemId t₂ u₂ := by
    unfold itemId sha1
    rw [joinBar_pair, joinBar_pair, h]
  refine ⟨hid, ?_⟩
  intro a b ha hb
  have hab : b.id = a.id := by rw [ha, hb, hid]
  simp [dedupById, dedupGo, hab]

/-- C10 witness: the distinct pairs of title and url whose joins are both
the string a-bar-b-bar-c receive equal ids. -/
theorem itemId_join_collision_witness :
    itemId "a|b" "c" = itemId "a" "b|c" :=
  (itemId_join_collision "a|b" "c" "a" "b|c" rfl).1

/-- C4: on a missing document, an empty document or an empty source list,
the loader returns no sources and the orchestrator exits with status 1, a
nonzero status, after printing the diagnostic to stderr. -/
theorem empty_sources_fatal (doc : Option YamlDoc)
    (fetch : Source → Except String (List Item)) (per total : Nat)
    (h : doc = none ∨ doc = some { sources := none } ∨ doc = some { sources := some [] }) :
    load_sources doc = [] ∧
    mainRun doc fetch per total = .error (1, "No sources in sources.yaml") ∧
    (1 : Nat) ≠ 0 := by
  have hl : load_sources doc = [] := by
    rcases h with rfl | rfl | rfl <;> simp [load_sources]
  exact ⟨hl, by simp [mainRun, hl], by omega⟩

/-- C4 witness: the missing-document case at concrete arguments. -/
theorem empty_sources_fatal_witness :
    load_sources none = [] ∧
    mainRun none (fun _ => Except.ok []) 20 200 = .error (1, "No sources in sources.yaml") ∧
    (1 : Nat) ≠ 0 :=
  empty_sources_fatal none (fun _ => Except.ok []) 20 200 (Or.inl rfl)

/-- C5: the time resolver tries the string fields published, updated,
pubDate in that order with the lenient parser, moving on when a candidate
is falsy or fails to parse, then the structured tuples published_parsed
and updated_parsed, and returns the current KST wall-clock time when every
strategy fails; being a total function it always returns a timestamp. -/
theorem parse_time_resolution {τ : Type} (p : String → Option τ)
    (q : List Nat → Option τ) (now : τ) (e : Entry) :
    (∀ t, tryStr p e.published = some t → parse_time p q now e = t) ∧
    (tryStr p e.published = none →
      ∀ t, tryStr p e.updated = some t → parse_time p q now e = t) ∧
    (tryStr p e.published = none → tryStr p e.updated = none →
      ∀ t, tryStr p e.pubDate = some t → parse_time p q now e = t) ∧
    (tryStr p e.published = none → tryStr p e.updated = none →
      tryStr p e.pubDate = none →
      ∀ t, tryTup q e.published_parsed = some t → parse_time p q now e = t) ∧
    (tryStr p e.published = none → tryStr p e.updated = none →
      tryStr p e.pubDate = none → tryTup q e.published_parsed = none →
      ∀ t, tryTup q e.updated_parsed = some t → parse_time p q now e = t) ∧
    (tryStr p e.published = none → tryStr p e.updated = none →
      tryStr p e.pubDate = none → tryTup q e.published_parsed = none →
      tryTup q e.updated_parsed = none → parse_time p q now e = now) := by
  refine ⟨?_, ?_, ?_, ?_, ?_, ?_⟩ <;> intros <;> simp_all [parse_time]

/-- C5 witness: with every candidate absent, the resolver returns the
wall-clock fallback. -/
theorem parse_time_resolution_witness :
    parse_time (fun _ => (none : Option Nat)) (fun _ => none) 7 {} = 7 :=
  (parse_time_resolution (fun _ => none) (fun _ => none) 7 {}).2.2.2.2.2
    rfl rfl rfl rfl rfl

/-- C6 counterexample: an empty-string override is present (`some ""`) yet
the categorizer does not return it unmodified — the Python truthiness
guard treats it as absent and the keyword cascade answers general. -/
theorem guess_category_empty_override :
    guess_category "x" "" (some "") = "general" ∧
    guess_category "x" "" (some "") ≠ "" := by
  constructor
  · decide
  · decide

/-- C6 amended: the categorizer returns a source-level override unmodified
whenever a non-empty one is present (no validation against the label set;
an empty-string override is treated as absent); otherwise it runs the
keyword cascade in the fixed order politics, economy, society, culture,
it_science, sports, so text hitting an earlier group gets that group even
when later groups also hit, and answers general when no group hits. -/
theorem guess_category_spec (title summary : String) (o : Option String) :
    (∀ c, o = some c → c ≠ "" → guess_category title summary o = c) ∧
    (o = none ∨ o = some "" →
      guess_category title summary o = categoryByKeywords title summary) ∧
    (hit (title ++ " " ++ summary) POLITICS_KW = true →
      guess_category title summary none = "politics") ∧
    (hit (title ++ " " ++ summary) POLITICS_KW = false →
      hit (title ++ " " ++ summary) ECONOMY_KW = true →
      guess_category title summary none = "economy") ∧
    (hit (title ++ " " ++ summary) POLITICS_KW = false →
      hit (title ++ " " ++ summary) ECONOMY_KW = false →
      hit (title ++ " " ++ summary) SOCIETY_KW = false →
      hit (title ++ " " ++ summary) CULTURE_KW = false →
      hit (title ++ " " ++ summary) ITSCI_KW = false →
      hit (title ++ " " ++ summary) SPORTS_KW = false →
      guess_category title summary none = "general") := by
  refine ⟨?_, ?_, ?_, ?_, ?_⟩
  · intro c hc hne; subst hc; simp [guess_category, hne]
  · rintro (rfl | rfl) <;> simp [guess_category]
  · intro h; simp [guess_category, categoryByKeywords, h]
  · intro h1 h2; simp [guess_category, categoryByKeywords, h1, h2]
  · intro h1 h2 h3 h4 h5 h6
    simp [guess_category, categoryByKeywords, h1, h2, h3, h4, h5, h6]

/-- C6 witness: an arbitrary non-empty override outside the closed label
set is returned unmodified, and a title containing both a politics and a
sports keyword is labelled politics. -/
theorem guess_category_spec_witness :
    guess_category "뉴스" "" (some "custom_label") = "custom_label" ∧
    guess_category "정치 축구" "" none = "politics" :=
  ⟨(guess_category_spec "뉴스" "" (some "custom_label")).1 "custom_label" rfl (by decide),
   (guess_category_spec "정치 축구" "" none).2.2.1 (by decide)⟩

/-- C7: the tagger always returns a lexicographically sorted list without
duplicates, and it contains short_title exactly when the title is at most
25 characters long. -/
theorem make_tags_spec (title summary : String) :
    (make_tags title summary).Pairwise (fun a b => pyStrLe a b = true) ∧
    (make_tags title summary).Nodup ∧
    ("short_title" ∈ make_tags title summary ↔ title.length ≤ 25) := by
  refine ⟨?_, ?_, ?_⟩
  · exact List.sorted_mergeSort pyStrLe_trans pyStrLe_total _
  · exact (List.mergeSort_perm _ pyStrLe).nodup_iff.mpr (List.nodup_dedup _)
  · unfold make_tags
    rw [(List.mergeSort_perm _ pyStrLe).mem_iff, List.mem_dedup]
    simp only [List.mem_append]
    split_ifs <;> simp_all

/-- C7 witness: a 25-character title receives short_title and a
26-character title does not. -/
theorem make_tags_spec_witness :
    "short_title" ∈ make_tags (List.asString (List.replicate 25 'a')) "" ∧
    "short_title" ∉ make_tags (List.asString (List.replicate 26 'a')) "" := by
  constructor
  · exact (make_tags_spec _ "").2.2.mpr (by simp [length_asString])
  · intro h
    have h2 := (make_tags_spec _ "").2.2.mp h
    simp [length_asString] at h2

/-- C2: whatever the per-source fetch outcomes and the limits, the final
output of the pipeline is sorted by published_at descending and no two of
its items share an id. -/
theorem pipeline_sorted_unique (rs : List (Source × Except String (List Item)))
    (per total : Nat) :
    (mainItems rs per total).Pairwise
      (fun a b => pyStrLe b.published_at a.published_at = true) ∧
    (mainItems rs per total).Pairwise (fun a b => a.id ≠ b.id) := by
  have hsub : (mainItems rs per total).Sublist
      (dedupById (sortDesc (collectAll per rs).1)) := List.take_sublist _ _
  have hsub2 : (dedupById (sortDesc (collectAll per rs).1)).Sublist
      (sortDesc (collectAll per rs).1) := dedupGo_sublist _ _
  constructor
  · exact List.Pairwise.sublist (hsub.trans hsub2) (sortDesc_sorted _)
  · exact List.Pairwise.sublist hsub (dedupGo_pairwise _ _)

/-- C3: the length of the final output is at most the minimum of the total
limit and the sum over sources of the minimum of the per-source limit and
that source's fetched item count. -/
theorem pipeline_count_bound (srcs : List (Source × List Item)) (per total : Nat) :
    (mainItems (srcs.map (fun sr => (sr.1, Except.ok sr.2))) per total).length ≤
      min total ((srcs.map (fun sr => min per sr.2.length)).sum) := by
  have hall : ((srcs.map (fun sr => ((sr.1 : Source),
        (Except.ok sr.2 : Except String (List Item))))).flatMap (sourceContrib per)).length
      = (srcs.map (fun sr => min per sr.2.length)).sum := by
    induction srcs with
    | nil => simp
    | cons sr rest ih =>
      simp only [List.map_cons, List.flatMap_cons, List.length_append, ih, List.sum_cons]
      simp [sourceContrib, sortDesc_length]
  have hmain : (mainItems (srcs.map (fun sr => (sr.1, Except.ok sr.2))) per total).length
      = min total (dedupById (sortDesc
          ((collectAll per (srcs.map (fun sr => (sr.1, Except.ok sr.2)))).1))).length :=
    List.length_take _ _
  rw [collectAll_fst] at hmain
  have hdedup : (dedupById (sortDesc
        ((srcs.map (fun sr => (sr.1, Except.ok sr.2))).flatMap (sourceContrib per)))).length
      ≤ ((srcs.map (fun sr => (sr.1, Except.ok sr.2))).flatMap (sourceContrib per)).length := by
    have h1 := (dedupGo_sublist (sortDesc
      ((srcs.map (fun sr => (sr.1, Except.ok sr.2))).flatMap (sourceContrib per))) []).length_le
    rw [sortDesc_length] at h1
    exact h1
  rw [hall] at hdedup
  omega

/-- C8: a source whose fetch raises contributes zero items — the pipeline
result equals the result with that source removed — the run continues
with the remaining sources, and a stderr warning naming that source is
emitted. -/
theorem failed_source_skipped (pre post : List (Source × Except String (List Item)))
    (src : Source) (e : String) (per total : Nat) :
    mainItems (pre ++ (src, Except.error e) :: post) per total =
      mainItems (pre ++ post) per total ∧
    warnLine src e ∈ mainWarnings (pre ++ (src, Except.error e) :: post) per := by
  constructor
  · unfold mainItems
    rw [collectAll_fst, collectAll_fst]
    have h : (pre ++ (src, Except.error (α := List Item) e) :: post).flatMap
        (sourceContrib per) = (pre ++ post).flatMap (sourceContrib per) := by
      simp [sourceContrib]
    rw [h]
  · rw [mainWarnings, collectAll_snd]
    refine List.mem_flatMap.mpr ⟨(src, Except.error e), ?_, ?_⟩
    · simp
    · simp [sourceWarn, warnLine]

/-- C1: the global stage sorts the concatenated kept items by published_at
descending and deduplicates by id keeping the first occurrence in that
order, so every retained item has the most recent published_at among all
same-id inputs; for two same-id items with different published_at, the
strictly older one is never retained; and when two sources each return one
item with identical trimmed title and url, the final output contains
exactly one item with that id. -/
theorem aggregate_sort_dedup :
    (∀ (all : List Item) (total : Nat), ∀ y ∈ finalize all total, ∀ x ∈ all,
      x.id = y.id → pyStrLe x.published_at y.published_at = true) ∧
    (∀ (all : List Item) (total : Nat) (x y : Item), x ∈ all → y ∈ all →
      x.id = y.id → pyStrLe y.published_at x.published_at = false →
      x ∉ finalize all total) ∧
    (∀ (τ₁ τ₂ : Type) (iso₁ : τ₁ → String) (p₁ : String → Option τ₁)
      (q₁ : List Nat → Option τ₁) (now₁ : τ₁) (s₁ : Source) (f₁ : String) (e₁ : Entry)
      (iso₂ : τ₂ → String) (p₂ : String → Option τ₂) (q₂ : List Nat → Option τ₂)
      (now₂ : τ₂) (s₂ : Source) (f₂ : String) (e₂ : Entry) (per total : Nat),
      1 ≤ per → 1 ≤ total →
      (e₁.title.getD "").trim = (e₂.title.getD "").trim →
      (e₁.link.getD "").trim = (e₂.link.getD "").trim →
      (mainItems [(s₁, Except.ok (fetch_rss iso₁ p₁ q₁ now₁ s₁ f₁ [e₁])),
          (s₂, Except.ok (fetch_rss iso₂ p₂ q₂ now₂ s₂ f₂ [e₂]))] per total).countP
        (fun it => it.id == (fetchItem iso₁ p₁ q₁ now₁ s₁ f₁ e₁).id) = 1) := by
  have H1 : ∀ (all : List Item) (total : Nat), ∀ y ∈ finalize all total, ∀ x ∈ all,
      x.id = y.id → pyStrLe x.published_at y.published_at = true := by
    intro all total y hy x hx hid
    have hy2 : y ∈ dedupById (sortDesc all) := finalize_mem_all hy
    have hx2 : x ∈ sortDesc all := (sortDesc_perm all).mem_iff.mpr hx
    exact dedupGo_dominates (sortDesc all) [] (sortDesc_sorted all) y hy2 x hx2 hid
  refine ⟨H1, ?_, ?_⟩
  · intro all total x y hx hy hid hlt hmem
    have h := H1 all total x hmem y hy hid.symm
    rw [h] at hlt
    cases hlt
  · intro τ₁ τ₂ iso₁ p₁ q₁ now₁ s₁ f₁ e₁ iso₂ p₂ q₂ now₂ s₂ f₂ e₂ per total
      hper htotal hT hL
    set a := fetchItem iso₁ p₁ q₁ now₁ s₁ f₁ e₁ with ha
    set b := fetchItem iso₂ p₂ q₂ now₂ s₂ f₂ e₂ with hb
    have hbid : b.id = a.id := by
      have h₁ : a.id = itemId ((e₁.title.getD "").trim) ((e₁.link.getD "").trim) := rfl
      have h₂ : b.id = itemId ((e₂.title.getD "").trim) ((e₂.link.getD "").trim) := rfl
      rw [h₁, h₂, hT, hL]
    have hall : (collectAll per [(s₁, Except.ok (fetch_rss iso₁ p₁ q₁ now₁ s₁ f₁ [e₁])),
        (s₂, Except.ok (fetch_rss iso₂ p₂ q₂ now₂ s₂ f₂ [e₂]))]).1 = [a, b] := by
      rw [collectAll_fst]
      have hf₁ : fetch_rss iso₁ p₁ q₁ now₁ s₁ f₁ [e₁] = [a] := rfl
      have hf₂ : fetch_rss iso₂ p₂ q₂ now₂ s₂ f₂ [e₂] = [b] := rfl
      simp only [List.flatMap_cons, List.flatMap_nil, sourceContrib, hf₁, hf₂]
      rw [show sortDesc [a] = [a] from List.mergeSort_singleton a,
        show sortDesc [b] = [b] from List.mergeSort_singleton b,
        take_one_le per a hper, take_one_le per b hper]
      simp
    have hmemid : ∀ x ∈ sortDesc [a, b], x.id = a.id := by
      intro x hx
      have hx2 : x ∈ [a, b] := (sortDesc_perm [a, b]).mem_iff.mp hx
      rcases List.mem_cons.mp hx2 with rfl | hx3
      · rfl
      · rw [List.mem_singleton.mp hx3, hbid]
    have hne : sortDesc [a, b] ≠ [] := by
      intro hnil
      have hlen := sortDesc_length [a, b]
      rw [hnil] at hlen
      simp at hlen
    obtain ⟨z, hz, hzid, hde⟩ := dedupById_all_same a.id (sortDesc [a, b]) hmemid hne
    have hfin : mainItems [(s₁, Except.ok (fetch_rss iso₁ p₁ q₁ now₁ s₁ f₁ [e₁])),
        (s₂, Except.ok (fetch_rss iso₂ p₂ q₂ now₂ s₂ f₂ [e₂]))] per total = [z] := by
      rw [mainItems, hall, finalize, hde, take_one_le total z htotal]
    rw [hfin]
    simp [List.countP_cons, hzid]

/-- C1 witness: two singleton sources reporting the same title and link
yield exactly one item with that id, at concrete parameters. -/
theorem aggregate_sort_dedup_witness :
    (mainItems [(⟨some "s1", none, none⟩,
        Except.ok (fetch_rss (fun _ : Nat => "") (fun _ => none) (fun _ => none) 0
          ⟨some "s1", none, none⟩ "f1" [{ title := some "t", link := some "u" }])),
      (⟨some "s2", none, none⟩,
        Except.ok (fetch_rss (fun _ : Nat => "") (fun _ => none) (fun _ => none) 0
          ⟨some "s2", none, none⟩ "f2"
          [{ title := some "t", link := some "u", summary := some "other" }]))] 1 1).countP
      (fun it => it.id == (fetchItem (fun _ : Nat => "") (fun _ => none) (fun _ => none) 0
        ⟨some "s1", none, none⟩ "f1" { title := some "t", link := some "u" }).id) = 1 :=
  aggregate_sort_dedup.2.2 Nat Nat (fun _ => "") (fun _ => none) (fun _ => none) 0
    ⟨some "s1", none, none⟩ "f1" { title := some "t", link := some "u" }
    (fun _ => "") (fun _ => none) (fun _ => none) 0
    ⟨some "s2", none, none⟩ "f2" { title := some "t", link := some "u", summary := some "other" }
    1 1 (by omega) (by omega) rfl rfl

end News
